import Mathlib

/-!
Shallow embedding of the tileable Poisson-disk sampler of
`glkernel/include/glkernel/sample.hpp` (`poisson_square_map` and
`poisson_square`).

The C++ code is templated over a floating-point scalar `T`; the embedding
uses exact rationals.  The random draws of the driver loop are passed in as
oracles: `pick it` models the `int_distribute(generator)` draw of iteration
`it`, and `offs it i` models the displacement `(r·cos a, r·sin a)` drawn for
probe `i` of iteration `it`.  The constraint that the radius lies in
`[min_dist, 2·min_dist)` becomes a hypothesis on the squared norm of the
offset where a theorem needs it.

Out-of-bounds accesses and the uninitialised read of `nearest_probe`
(undefined behaviour in C++) are modelled by the error value `RunErr.ub`;
exhaustion of the step-count bound used to run the while-loop is
`RunErr.fuel` (we prove it is never reached).
-/

namespace GLKernel

set_option allowUnsafeReducibility true in
attribute [semireducible] Rat.mul Rat.add Rat.sub Rat.neg Rat.div Rat.inv Rat.blt Rat.normalize

set_option maxRecDepth 16000

/-- A 2D point, `glm::tvec2<T, P>` with exact rational coordinates. -/
abbrev Pt := ℚ × ℚ

/-- `static_cast<int>` of a scalar value: truncation toward zero. -/
def cppInt (q : ℚ) : ℤ := if q < 0 then -((-q).floor) else q.floor

instance {ε α : Type} [DecidableEq ε] [DecidableEq α] : DecidableEq (Except ε α) :=
  fun a b =>
    match a, b with
    | .ok x, .ok y =>
      if h : x = y then .isTrue (by rw [h])
      else .isFalse (fun hc => h (by injection hc))
    | .ok _, .error _ => .isFalse (fun hc => by injection hc)
    | .error _, .ok _ => .isFalse (fun hc => by injection hc)
    | .error x, .error y =>
      if h : x = y then .isTrue (by rw [h])
      else .isFalse (fun hc => h (by injection hc))

/-- `glm::dot(v, v)`: squared Euclidean norm. -/
def dot2 (v : Pt) : ℚ := v.1 * v.1 + v.2 * v.2

/-- Squared Euclidean distance between two points. -/
def dist2 (a b : Pt) : ℚ := dot2 (a.1 - b.1, a.2 - b.2)

/-- Squared norm of `a - b + t` for a translation `t`. -/
def tShift (a b : Pt) (tx ty : ℚ) : ℚ :=
  (a.1 - b.1 + tx) ^ 2 + (a.2 - b.2 + ty) ^ 2

/-- Toroidal squared distance: the minimum of `‖a - b + t‖²` over the nine
translations `t ∈ {-1,0,1}²` (the `t = (0,0)` term is listed first). -/
def torDist2 (a b : Pt) : ℚ :=
  min (tShift a b 0 0)
    (min (min (min (tShift a b (-1) (-1)) (tShift a b (-1) 0))
              (min (tShift a b (-1) 1) (tShift a b 0 (-1))))
         (min (min (tShift a b 0 1) (tShift a b 1 (-1)))
              (min (tShift a b 1 0) (tShift a b 1 1))))

/-! ## The occupancy grid (`poisson_square_map`) -/

/-- Failure modes of `poisson_square_map::mask`: an out-of-bounds store,
or the `assert(m_mask[o] == m_none)` firing on an occupied cell. -/
inductive MarkErr
  | oob
  | occupied
deriving DecidableEq

/-- The flattened cell index `int(p.y·s)·s + int(p.x·s)` computed by
`poisson_square_map::mask`.  No clamping is performed by the source. -/
def cellIdx (S : ℕ) (p : Pt) : ℤ :=
  cppInt (p.2 * (S : ℚ)) * (S : ℤ) + cppInt (p.1 * (S : ℚ))

/-- `poisson_square_map::mask(point, k)`: store index `k` in the grid cell of
`point`.  The store is in bounds only if the flat index lies in
`[0, S·S)`; the cell must currently be empty. -/
def mark (S : ℕ) (maskArr : List (Option ℕ)) (p : Pt) (k : ℕ) :
    Except MarkErr (List (Option ℕ)) :=
  let o := cellIdx S p
  if 0 ≤ o then
    match maskArr.get? o.toNat with
    | none => .error .oob
    | some (some _) => .error .occupied
    | some none => .ok (maskArr.set o.toNat (some k))
  else .error .oob

/-- The 25 cell offsets of the 5×5 block scanned by
`poisson_square_map::masked`, in the loop order of the source
(`j` outer ascending, `i` inner ascending); an offset `(oj, oi)` stands for
the cell `(y + oj, x + oi)`. -/
def cellOffsets : List (ℤ × ℤ) :=
  (List.range 5).flatMap fun jj => (List.range 5).map fun ii => ((jj : ℤ) - 2, (ii : ℤ) - 2)

/-- The skip test of `poisson_square_map::masked`: the four outer corners
`(j = y±2) ∧ (i = x±2)`, expressed on the offsets. -/
def isCornerOff (o : ℤ × ℤ) : Bool :=
  decide ((o.1 = -2 ∨ o.1 = 2) ∧ (o.2 = -2 ∨ o.2 = 2))

/-- `i < 0 ? i + s : i % s`, the index tiling of `poisson_square_map::masked`. -/
def tiled (s i : ℤ) : ℤ := if i < 0 then i + s else i % s

/-- The unwrap adjustment applied to a stored point's coordinate before the
distance test: `if (i < 0) c -= 1 else if (i >= s) c += 1`. -/
def unwrapAdj (s i : ℤ) (c : ℚ) : ℚ :=
  if i < 0 then c - 1 else if s ≤ i then c + 1 else c

/-- One cell of the scan of `poisson_square_map::masked`: look up the tiled
cell `(j, i)`, and if it stores a point index, test that point (after the
unwrap adjustment) against `probe` at squared distance `d2`.
`none` models an out-of-bounds read (undefined behaviour). -/
def cellCheck (s : ℤ) (d2 : ℚ) (maskArr : List (Option ℕ)) (kernel : List Pt)
    (probe : Pt) (j i : ℤ) : Option Bool :=
  let idx := tiled s j * s + tiled s i
  if 0 ≤ idx then
    match maskArr.get? idx.toNat with
    | none => none
    | some none => some false
    | some (some o) =>
      match kernel.get? o with
      | none => none
      | some q =>
        some (decide (dist2 (unwrapAdj s i q.1, unwrapAdj s j q.2) probe < d2))
  else none

/-- `poisson_square_map::masked(probe, kernel)`: scan the 5×5 block around
the probe's cell, skipping the four outer corners, and report whether some
stored point lies at squared distance `< d2` from the probe.  The fold stops
looking once a hit is found, mirroring the early `return true`. -/
def masked (S : ℕ) (d2 : ℚ) (maskArr : List (Option ℕ)) (kernel : List Pt)
    (probe : Pt) : Option Bool :=
  let s : ℤ := (S : ℤ)
  let x := cppInt (probe.1 * (S : ℚ))
  let y := cppInt (probe.2 * (S : ℚ))
  cellOffsets.foldl
    (fun acc off =>
      match acc with
      | none => none
      | some true => some true
      | some false =>
        if isCornerOff off then some false
        else cellCheck s d2 maskArr kernel probe (y + off.1) (x + off.2))
    (some false)

/-! ## Probe generation and selection (`poisson_square` body) -/

/-- The toroidal wrap applied to each probe coordinate:
`if (x < 0) x += 1 else if (x >= 1) x -= 1`. -/
def wrap1 (x : ℚ) : ℚ := if x < 0 then x + 1 else if 1 ≤ x then x - 1 else x

/-- Component-wise wrap of a point. -/
def wrapPt (p : Pt) : Pt := (wrap1 p.1, wrap1 p.2)

/-- One probe of the inner loop: displace the active point by `off`, wrap,
query the grid, and record the probe together with its ranking value
(`-1` when masked, otherwise `dot(abs(active - probe), abs(active - probe))`).
`none` propagates an out-of-bounds grid read. -/
def mkProbe (S : ℕ) (d2 : ℚ) (maskArr : List (Option ℕ)) (kernel : List Pt)
    (active : Pt) (off : Pt) : Option (Pt × ℚ) :=
  let probe := wrapPt (active.1 + off.1, active.2 + off.2)
  (masked S d2 maskArr kernel probe).map fun m =>
    (probe, if m then (-1 : ℚ) else dot2 (|active.1 - probe.1|, |active.2 - probe.2|))

/-- The selection loop over the probe array: `m` is `nearest_dist`
(initially `4·min_dist²`) and `best` is the probe recorded so far.  A probe
is skipped iff its value is negative or exceeds the current `m`. -/
def selectNearestGo : List (Pt × ℚ) → ℚ → Option Pt → Option Pt
  | [], _, best => best
  | (p, nd) :: rest, m, best =>
    if nd < 0 ∨ m < nd then selectNearestGo rest m best
    else selectNearestGo rest nd (some p)

/-- "Pick nearest probe from sample set" (lines 176–193): returns the chosen
probe, or `none` when `nearest_found` stays false. -/
def selectNearest (d2 : ℚ) (ps : List (Pt × ℚ)) : Option Pt :=
  selectNearestGo ps (4 * d2) none

/-! ## The driver loop (`poisson_square`) -/

/-- The mutable state of the driver loop. -/
structure St where
  kernel : List Pt
  k : ℕ
  actives : List ℕ
  maskArr : List (Option ℕ)
deriving DecidableEq

/-- Abnormal outcomes of the embedded run: `ub` models C++ undefined
behaviour (out-of-bounds access, failed assert, uninitialised read);
`fuel` marks exhaustion of the step bound (proved unreachable). -/
inductive RunErr
  | ub
  | fuel
deriving DecidableEq

/-- The probe array of one iteration: `num_probes` probes generated from
`active` with the oracle offsets. -/
def iterProbes (S : ℕ) (d2 : ℚ) (numProbes : ℕ) (offs : ℕ → Pt)
    (maskArr : List (Option ℕ)) (kernel : List Pt) (active : Pt) :
    Option (List (Pt × ℚ)) :=
  (List.range numProbes).mapM fun i => mkProbe S d2 maskArr kernel active (offs i)

/-- One iteration of the while-loop of `poisson_square`: pick the active
index `pick % actives.size()`, generate and rank the probes, then either
accept the nearest probe (write it at `k+1`, push `k+1`, mark the grid) or
erase the picked index (the erase branch runs whenever no probe was found
and `actives.size() > 0 || k > 1`; its negation would reach the
uninitialised `nearest_probe`). -/
def stepIter (S : ℕ) (d2 : ℚ) (numProbes : ℕ) (pick : ℕ) (offs : ℕ → Pt)
    (st : St) : Except RunErr St :=
  let pickIdx := pick % st.actives.length
  match st.actives.get? pickIdx with
  | none => .error .ub
  | some aIdx =>
    match st.kernel.get? aIdx with
    | none => .error .ub
    | some active =>
      match iterProbes S d2 numProbes offs st.maskArr st.kernel active with
      | none => .error .ub
      | some probes =>
        match selectNearest d2 probes with
        | none =>
          if 0 < st.actives.length ∨ 1 < st.k then
            .ok ⟨st.kernel, st.k, st.actives.eraseIdx pickIdx, st.maskArr⟩
          else .error .ub
        | some best =>
          if st.k + 1 < st.kernel.length then
            match mark S st.maskArr best (st.k + 1) with
            | .error _ => .error .ub
            | .ok m2 =>
              .ok ⟨st.kernel.set (st.k + 1) best, st.k + 1,
                   st.actives ++ [st.k + 1], m2⟩
          else .error .ub

/-- The while-loop `while (!actives.empty() && k < kernel.size() - 1)`,
driven by a step-count bound (first argument) and the iteration counter
used to address the oracles. -/
def runLoop (S : ℕ) (d2 : ℚ) (numProbes : ℕ) (pick : ℕ → ℕ) (offs : ℕ → ℕ → Pt) :
    ℕ → ℕ → St → Except RunErr St
  | 0, _, _ => .error .fuel
  | fuel + 1, it, st =>
    if st.actives = [] ∨ ¬ st.k < st.kernel.length - 1 then .ok st
    else
      match stepIter S d2 numProbes (pick it) (offs it) st with
      | .error e => .error e
      | .ok st2 => runLoop S d2 numProbes pick offs fuel (it + 1) st2

/-- `poisson_square(kernel, min_dist, num_probes)`.  `S` is the grid side
`⌈√2 / min_dist⌉` and `d2 = min_dist²` (the only uses the source makes of
`min_dist`).  Seeds the buffer with `(0.5, 0.5)`, marks it, runs the loop,
and returns `k + 1` together with the final buffer. -/
def poissonSquare (S : ℕ) (d2 : ℚ) (numProbes : ℕ) (pick : ℕ → ℕ)
    (offs : ℕ → ℕ → Pt) (kernel0 : List Pt) : Except RunErr (ℕ × List Pt) :=
  if kernel0.length = 0 then .error .ub
  else
    let seed : Pt := (1/2, 1/2)
    let kernel1 := kernel0.set 0 seed
    match mark S (List.replicate (S * S) none) seed 0 with
    | .error _ => .error .ub
    | .ok m1 =>
      match runLoop S d2 numProbes pick offs (2 * kernel0.length) 0
          ⟨kernel1, 0, [0], m1⟩ with
      | .error e => .error e
      | .ok st => .ok (st.k + 1, st.kernel)

/-! ## Concrete inputs used by individual claims -/

/-- C1 failing input, picks: choose active index 0, 0, then 2. -/
def c1pick : ℕ → ℕ := fun it => [0, 0, 2].getD it 0

/-- C1 failing input, probe offsets for the three iterations; each has
squared norm in `[min_dist², 4·min_dist²)` for `min_dist = 1/10`. -/
def c1offs : ℕ → ℕ → Pt := fun it _ =>
  [((-1/10 : ℚ), (-1/10 : ℚ)), ((-1/60 : ℚ), (-11/60 : ℚ)),
   ((-91/600 : ℚ), (3/200 : ℚ))].getD it (0, 0)

/-- C1 failing input: a caller-provided buffer of capacity 4. -/
def c1init : List Pt := [(0, 0), (0, 0), (0, 0), (0, 0)]

/-- C2 counterexample: grid with points 0 and 1 marked (cells (7,7) and
(9,7) of the 15×15 grid for `min_dist = 1/10`). -/
def c2mask : List (Option ℕ) :=
  ((List.replicate 225 none).set 112 (some 0)).set 114 (some 1)

/-- C2 counterexample: a reachable loop state with two accepted points
`(1/2, 1/2)` and `(3/5, 1/2)`, `k = 1`, and a single active index. -/
def c2st : St := ⟨[(1/2, 1/2), (3/5, 1/2), (0, 0)], 1, [1], c2mask⟩

/-- C3 counterexample: grid holding the single point `(1/20, 1/2)`
(cell (0,7), flat index 105). -/
def c3mask : List (Option ℕ) := (List.replicate 225 none).set 105 (some 0)

/-- C4 counterexample: grid holding the single point `(2/5, 2/5)`
(cell (6,6), flat index 96). -/
def c4mask : List (Option ℕ) := (List.replicate 225 none).set 96 (some 0)

/-! ## General lemmas -/

/-- For a nonnegative argument the C++ int cast agrees with the floor. -/
theorem cppInt_of_nonneg (q : ℚ) (h : 0 ≤ q) : cppInt q = ⌊q⌋ := by
  rw [cppInt, if_neg (not_lt.mpr h), Rat.floor_def', ← Rat.floor_def]

/-- The wrap sends `(-1, 2)` into `[0, 1)`. -/
theorem wrap1_mem (x : ℚ) (h1 : -1 < x) (h2 : x < 2) : 0 ≤ wrap1 x ∧ wrap1 x < 1 := by
  unfold wrap1
  split_ifs with h h3 <;> constructor <;> linarith

/-- The wrap is the identity on `[0, 1)`. -/
theorem wrap1_id (x : ℚ) (h1 : 0 ≤ x) (h2 : x < 1) : wrap1 x = x := by
  unfold wrap1
  rw [if_neg (not_lt.mpr h1), if_neg (not_le.mpr h2)]

/-! ## The claims -/

/-- C1: the minimum-distance guarantee fails on the code.  On the concrete
run below (buffer capacity 4, `min_dist = 1/10` giving grid side
`S = ⌈√2/min_dist⌉ = 15`, one probe per iteration, each drawn offset having
squared norm in `[min_dist², 4·min_dist²)`), the sampler returns four
points among which `(2/5, 2/5)` and `(199/600, 199/600)` are at toroidal
squared distance `1681/180000 < min_dist²`: the point `(2/5, 2/5)` sits in
an outer-corner cell of the probe's 5×5 block and the corner skip of
`poisson_square_map::masked` misses it. -/
theorem c1_min_dist_guarantee_violated :
    (((15 : ℚ) - 1) * (1/10)) ^ 2 < 2 ∧ 2 ≤ ((15 : ℚ) * (1/10)) ^ 2 ∧
    ((1/10 : ℚ) ^ 2 ≤ dot2 (-1/10, -1/10) ∧ dot2 ((-1/10 : ℚ), (-1/10 : ℚ)) < 4 * (1/10) ^ 2) ∧
    ((1/10 : ℚ) ^ 2 ≤ dot2 (-1/60, -11/60) ∧ dot2 ((-1/60 : ℚ), (-11/60 : ℚ)) < 4 * (1/10) ^ 2) ∧
    ((1/10 : ℚ) ^ 2 ≤ dot2 (-91/600, 3/200) ∧ dot2 ((-91/600 : ℚ), (3/200 : ℚ)) < 4 * (1/10) ^ 2) ∧
    poissonSquare 15 (1/100) 1 c1pick c1offs c1init =
      .ok (4, [(1/2, 1/2), (2/5, 2/5), (29/60, 19/60), (199/600, 199/600)]) ∧
    torDist2 (2/5, 2/5) (199/600, 199/600) < (1/10 : ℚ) ^ 2 := by
  decide

/-- C2 counterexample: at a reachable loop state with a single active index
and `k = 1` (so neither `|actives| > 1` nor `k > 1` holds), an iteration in
which the only probe is masked still erases the picked index — the source
erases whenever `actives.size() > 0`, which always holds inside the loop,
so the claimed retention branch never runs.  The probe offset has squared
norm `9/400 ∈ [min_dist², 4·min_dist²)`. -/
theorem c2_single_active_still_erased :
    stepIter 15 (1/100) 1 0 (fun _ => ((-3/20 : ℚ), (0 : ℚ))) c2st =
      .ok ⟨[(1/2, 1/2), (3/5, 1/2), (0, 0)], 1, [], c2mask⟩ ∧
    c2st.actives.length = 1 ∧ c2st.k ≤ 1 ∧
    ((1/10 : ℚ) ^ 2 ≤ dot2 (-3/20, 0) ∧ dot2 ((-3/20 : ℚ), (0 : ℚ)) < 4 * (1/10) ^ 2) := by
  decide

/-- C3 counterexample: for the active point `(1/20, 1/2)` and offset
`(-1/10, 0)` (radius exactly `min_dist = 1/10`) the probe wraps to
`(19/20, 1/2)` and is not masked, and the recorded ranking value `81/100`
is neither the toroidal squared distance (`1/100`) nor within
`[min_dist², 4·min_dist²] = [1/100, 1/25]`. -/
theorem c3_recorded_not_toroidal :
    mkProbe 15 (1/100) c3mask [((1/20 : ℚ), (1/2 : ℚ))] (1/20, 1/2) (-1/10, 0) =
      some ((19/20, 1/2), 81/100) ∧
    ((1/10 : ℚ) ^ 2 ≤ dot2 (-1/10, 0) ∧ dot2 ((-1/10 : ℚ), (0 : ℚ)) < 4 * (1/10) ^ 2) ∧
    torDist2 (1/20, 1/2) (19/20, 1/2) = 1/100 ∧
    (81/100 : ℚ) ≠ 1/100 ∧ ¬ (81/100 : ℚ) ≤ 4 * (1/10) ^ 2 := by
  decide

/-- C4 counterexample: the stored point `(2/5, 2/5)` lies in the outer
corner cell `(cx+2, cy+2)` of the 5×5 block of the probe
`(199/600, 199/600)` and is within `min_dist` of it in the toroidal metric
(no wrap is even involved), yet `masked` reports no collision: the four
skipped corner cells can contain accepted points within `min_dist`. -/
theorem c4_corner_point_within_min_dist :
    masked 15 (1/100) c4mask [((2/5 : ℚ), (2/5 : ℚ))] (199/600, 199/600) = some false ∧
    cppInt ((2/5 : ℚ) * 15) = cppInt ((199/600 : ℚ) * 15) + 2 ∧
    c4mask.get? 96 = some (some 0) ∧
    torDist2 (199/600, 199/600) (2/5, 2/5) < (1/10 : ℚ) ^ 2 ∧
    dist2 (2/5, 2/5) (199/600, 199/600) < (1/10 : ℚ) ^ 2 := by
  decide

/-- C5 counterexample: with `min_dist = 9/10 ∈ (0, 1)`, the active point
`(1/10, 1/2)` and the offset `(-17/10, 0)` of norm `17/10 ∈ [9/10, 18/10)`,
the single per-coordinate wrap leaves the x-coordinate at `-3/5 < 0`: one
add/subtract does not suffice once `min_dist > 1/2`. -/
theorem c5_wrap_escapes_unit_square :
    (0 : ℚ) < 9/10 ∧ (9/10 : ℚ) < 1 ∧
    ((0 : ℚ) ≤ 1/10 ∧ (1/10 : ℚ) < 1 ∧ (0 : ℚ) ≤ 1/2 ∧ (1/2 : ℚ) < 1) ∧
    ((9/10 : ℚ) ^ 2 ≤ dot2 (-17/10, 0) ∧ dot2 ((-17/10 : ℚ), (0 : ℚ)) < 4 * (9/10) ^ 2) ∧
    (wrapPt ((1/10 : ℚ) + (-17/10), (1/2 : ℚ) + 0)).1 < 0 := by
  decide

/-- C5 (amended): for `min_dist ≤ 1/2` the claim holds: any probe offset of
squared norm `< 4·min_dist²` moves a point of `[0,1)²` by less than 1 per
coordinate, so the single per-coordinate wrap lands in `[0,1)²`. -/
theorem c5_wrap_containment (d : ℚ) (a off : Pt)
    (hd0 : 0 < d) (hd1 : d ≤ 1/2)
    (ha1 : 0 ≤ a.1) (ha2 : a.1 < 1) (ha3 : 0 ≤ a.2) (ha4 : a.2 < 1)
    (hr1 : d ^ 2 ≤ dot2 off) (hr2 : dot2 off < 4 * d ^ 2) :
    0 ≤ (wrapPt (a.1 + off.1, a.2 + off.2)).1 ∧
    (wrapPt (a.1 + off.1, a.2 + off.2)).1 < 1 ∧
    0 ≤ (wrapPt (a.1 + off.1, a.2 + off.2)).2 ∧
    (wrapPt (a.1 + off.1, a.2 + off.2)).2 < 1 := by
  have hsq : d ^ 2 ≤ 1/4 := by nlinarith
  have h1 : off.1 * off.1 < 1 := by
    have := mul_self_nonneg off.2
    simp only [dot2] at hr2
    nlinarith
  have h2 : off.2 * off.2 < 1 := by
    have := mul_self_nonneg off.1
    simp only [dot2] at hr2
    nlinarith
  have hx1 : -1 < off.1 := by nlinarith
  have hx2 : off.1 < 1 := by nlinarith
  have hy1 : -1 < off.2 := by nlinarith
  have hy2 : off.2 < 1 := by nlinarith
  have wx := wrap1_mem (a.1 + off.1) (by linarith) (by linarith)
  have wy := wrap1_mem (a.2 + off.2) (by linarith) (by linarith)
  exact ⟨wx.1, wx.2, wy.1, wy.2⟩

/-- C5 witness: the containment theorem applied at `min_dist = 1/10`,
active point `(1/2, 1/2)` and offset `(1/10, 1/10)`. -/
theorem c5_wrap_containment_witness :
    0 ≤ (wrapPt ((1/2 : ℚ) + 1/10, (1/2 : ℚ) + 1/10)).1 ∧
    (wrapPt ((1/2 : ℚ) + 1/10, (1/2 : ℚ) + 1/10)).1 < 1 ∧
    0 ≤ (wrapPt ((1/2 : ℚ) + 1/10, (1/2 : ℚ) + 1/10)).2 ∧
    (wrapPt ((1/2 : ℚ) + 1/10, (1/2 : ℚ) + 1/10)).2 < 1 :=
  c5_wrap_containment (1/10) (1/2, 1/2) (1/10, 1/10)
    (by norm_num) (by norm_num) (by norm_num) (by norm_num) (by norm_num) (by norm_num)
    (by norm_num [dot2]) (by norm_num [dot2])

/-- C4 (amended): a point stored in one of the four outer corner cells of
the 5×5 block is at squared distance more than `2·c²` from the probe, where
`c = 1/S` is the cell side — a bound that can be smaller than `min_dist²`,
so the skip may miss colliding points; and exactly 21 of the 25 cells are
examined.  Cell membership is stated through the cell side `c`: the probe
lies in `[ax, ax+c) × [ay, ay+c)` and the (unwrap-adjusted) stored point in
the corner cell `(ox, oy)` with `ox, oy ∈ {-2, 2}`. -/
theorem c4_corner_cell_bound (c : ℚ) (p q : Pt) (ax ay : ℚ) (ox oy : ℤ)
    (hc : 0 < c) (hcorner : isCornerOff (oy, ox) = true)
    (hp1 : ax ≤ p.1) (hp2 : p.1 < ax + c) (hp3 : ay ≤ p.2) (hp4 : p.2 < ay + c)
    (hq1 : ax + (ox : ℚ) * c ≤ q.1) (hq2 : q.1 < ax + ((ox : ℚ) + 1) * c)
    (hq3 : ay + (oy : ℚ) * c ≤ q.2) (hq4 : q.2 < ay + ((oy : ℚ) + 1) * c) :
    2 * c ^ 2 < dist2 q p ∧
    (cellOffsets.filter fun o => !(isCornerOff o)).length = 21 := by
  refine ⟨?_, by decide⟩
  have hcc : (oy = -2 ∨ oy = 2) ∧ (ox = -2 ∨ ox = 2) := by
    simpa [isCornerOff] using hcorner
  simp only [dist2, dot2]
  obtain ⟨hy | hy, hx | hx⟩ := hcc <;> subst hy <;> subst hx <;>
    (push_cast at hq1 hq2 hq3 hq4; nlinarith [sq_nonneg (q.1 - p.1), sq_nonneg (q.2 - p.2)])

/-- C4 witness: the bound applied to the C4 counterexample configuration
(`S = 15`, probe `(199/600, 199/600)` in cell `(4,4)`, stored point
`(2/5, 2/5)` in corner cell `(6,6)`). -/
theorem c4_corner_cell_bound_witness :
    2 * (1/15 : ℚ) ^ 2 < dist2 (2/5, 2/5) (199/600, 199/600) ∧
    (cellOffsets.filter fun o => !(isCornerOff o)).length = 21 :=
  c4_corner_cell_bound (1/15) (199/600, 199/600) (2/5, 2/5) (4/15) (4/15) 2 2
    (by norm_num) (by decide) (by norm_num) (by norm_num) (by norm_num) (by norm_num)
    (by norm_num) (by norm_num) (by norm_num) (by norm_num)

/-- C8 counterexample: `poisson_square_map::mask` performs no clamping: at
the point `(1, 1)` (outside `[0,1)²`) the computed flat cell index is
`S·S + S = 240`, outside the `S·S`-entry mask array, and the store is out
of bounds instead of clamped. -/
theorem c8_mark_out_of_bounds :
    mark 15 (List.replicate 225 none) ((1 : ℚ), (1 : ℚ)) 0 = .error .oob ∧
    cellIdx 15 ((1 : ℚ), (1 : ℚ)) = 240 ∧ (List.replicate (225 : ℕ) (none : Option ℕ)).length = 225 := by
  decide

/-- C8 (amended): no clamping is performed, but for every point of
`[0,1)²` the computed cell coordinates lie in `[0, S)` so the flat index is
in bounds; the store succeeds on an empty cell and fails with the
`assert` (`InvariantViolation`) on an occupied one. -/
theorem c8_mark_unit_square (S : ℕ) (maskArr : List (Option ℕ)) (p : Pt) (k : ℕ)
    (hS : 0 < S) (hlen : maskArr.length = S * S)
    (hx1 : 0 ≤ p.1) (hx2 : p.1 < 1) (hy1 : 0 ≤ p.2) (hy2 : p.2 < 1) :
    0 ≤ cellIdx S p ∧ (cellIdx S p).toNat < maskArr.length ∧
    (maskArr.get? (cellIdx S p).toNat = some none →
      mark S maskArr p k = .ok (maskArr.set (cellIdx S p).toNat (some k))) ∧
    (∀ j, maskArr.get? (cellIdx S p).toNat = some (some j) →
      mark S maskArr p k = .error .occupied) := by
  have hSQ : (0 : ℚ) < (S : ℚ) := by exact_mod_cast hS
  have e1 : cppInt (p.1 * (S : ℚ)) = ⌊p.1 * (S : ℚ)⌋ :=
    cppInt_of_nonneg _ (mul_nonneg hx1 hSQ.le)
  have e2 : cppInt (p.2 * (S : ℚ)) = ⌊p.2 * (S : ℚ)⌋ :=
    cppInt_of_nonneg _ (mul_nonneg hy1 hSQ.le)
  have hcx0 : 0 ≤ ⌊p.1 * (S : ℚ)⌋ := Int.floor_nonneg.mpr (mul_nonneg hx1 hSQ.le)
  have hcy0 : 0 ≤ ⌊p.2 * (S : ℚ)⌋ := Int.floor_nonneg.mpr (mul_nonneg hy1 hSQ.le)
  have hcx1 : ⌊p.1 * (S : ℚ)⌋ < (S : ℤ) := by
    rw [Int.floor_lt]
    push_cast
    nlinarith
  have hcy1 : ⌊p.2 * (S : ℚ)⌋ < (S : ℤ) := by
    rw [Int.floor_lt]
    push_cast
    nlinarith
  have hidx0 : 0 ≤ cellIdx S p := by
    rw [cellIdx, e1, e2]
    have : 0 ≤ ⌊p.2 * (S : ℚ)⌋ * (S : ℤ) := mul_nonneg hcy0 (by exact_mod_cast hS.le)
    omega
  have hidx1 : cellIdx S p < ((S * S : ℕ) : ℤ) := by
    rw [cellIdx, e1, e2]
    push_cast
    nlinarith
  have hidxN : (cellIdx S p).toNat < maskArr.length := by
    rw [hlen]
    omega
  refine ⟨hidx0, hidxN, ?_, ?_⟩
  · intro hget
    simp only [mark, if_pos hidx0, hget]
  · intro j hget
    simp only [mark, if_pos hidx0, hget]

/-- C8 witness: the amended statement applied at `S = 15`, a fresh
225-entry mask, the in-range point `(1/2, 1/2)` and index 0. -/
theorem c8_mark_unit_square_witness :
    0 ≤ cellIdx 15 ((1/2 : ℚ), (1/2 : ℚ)) ∧
    (cellIdx 15 ((1/2 : ℚ), (1/2 : ℚ))).toNat < (List.replicate 225 (none : Option ℕ)).length ∧
    mark 15 (List.replicate 225 none) ((1/2 : ℚ), (1/2 : ℚ)) 0 =
      .ok ((List.replicate 225 none).set (cellIdx 15 ((1/2 : ℚ), (1/2 : ℚ))).toNat (some 0)) := by
  have h := c8_mark_unit_square 15 (List.replicate 225 none) (1/2, 1/2) 0
    (by norm_num) (by simp) (by norm_num) (by norm_num) (by norm_num) (by norm_num)
  exact ⟨h.1, h.2.1, h.2.2.1 (by decide)⟩

set_option maxHeartbeats 2000000 in
/-- C3 (amended): the recorded ranking value of a non-colliding probe is
the squared component-wise absolute difference between the active point and
the wrapped probe, which is the plain squared Euclidean distance to the
wrapped probe.  Only when the probe does not wrap (and `min_dist ≤ 1/4`, so
offsets stay below `1/2` per coordinate) does it also equal the toroidal
squared distance and lie in `[min_dist², 4·min_dist²)`. -/
theorem c3_recorded_squared_diff (S : ℕ) (d : ℚ) (grid : List (Option ℕ))
    (kernel : List Pt) (a off p : Pt) (v : ℚ)
    (hprobe : mkProbe S (d ^ 2) grid kernel a off = some (p, v)) (hv : 0 ≤ v) :
    v = dist2 a p ∧
    (0 < d → d ≤ 1/4 → d ^ 2 ≤ dot2 off → dot2 off < 4 * d ^ 2 →
      0 ≤ a.1 + off.1 → a.1 + off.1 < 1 → 0 ≤ a.2 + off.2 → a.2 + off.2 < 1 →
      v = torDist2 a p ∧ d ^ 2 ≤ v ∧ v < 4 * d ^ 2) := by
  simp only [mkProbe, Option.map_eq_some'] at hprobe
  obtain ⟨m, hm, hpair⟩ := hprobe
  simp only [Prod.mk.injEq] at hpair
  obtain ⟨hp, hval⟩ := hpair
  rcases m with _ | _
  · simp only [if_neg Bool.false_ne_true] at hval
    have hvdist : v = dist2 a p := by
      rw [← hval, ← hp]
      simp only [dist2, dot2]
      rw [abs_mul_abs_self, abs_mul_abs_self]
    refine ⟨hvdist, ?_⟩
    intro hd0 hd4 hr1 hr2 hw1 hw2 hw3 hw4
    have hpw : p = (a.1 + off.1, a.2 + off.2) := by
      rw [← hp, wrapPt, wrap1_id _ hw1 hw2, wrap1_id _ hw3 hw4]
    have hvoff : v = dot2 off := by
      rw [hvdist, hpw, dist2, dot2, dot2]
      ring
    clear hm hval hp hvdist hv
    have hsq : d ^ 2 ≤ 1/16 := by nlinarith
    have ho1 : off.1 * off.1 < 1/4 := by
      have := mul_self_nonneg off.2
      simp only [dot2] at hr2
      nlinarith
    have ho2 : off.2 * off.2 < 1/4 := by
      have := mul_self_nonneg off.1
      simp only [dot2] at hr2
      nlinarith
    refine ⟨?_, by rw [hvoff]; exact hr1, by rw [hvoff]; exact hr2⟩
    have hb1a : -(1/2) < off.1 := by nlinarith [sq_nonneg (2 * off.1 + 1)]
    have hb1b : off.1 < 1/2 := by nlinarith [sq_nonneg (2 * off.1 - 1)]
    have hb2a : -(1/2) < off.2 := by nlinarith [sq_nonneg (2 * off.2 + 1)]
    have hb2b : off.2 < 1/2 := by nlinarith [sq_nonneg (2 * off.2 - 1)]
    have hcenter : tShift a p 0 0 = dot2 off := by
      rw [hpw, tShift, dot2]
      ring
    have hrest : tShift a p 0 0 ≤
        min (min (min (tShift a p (-1) (-1)) (tShift a p (-1) 0))
              (min (tShift a p (-1) 1) (tShift a p 0 (-1))))
           (min (min (tShift a p 0 1) (tShift a p 1 (-1)))
              (min (tShift a p 1 0) (tShift a p 1 1))) := by
      simp only [le_min_iff]
      rw [hpw]
      simp only [tShift]
      refine ⟨⟨⟨?_, ?_⟩, ?_, ?_⟩, ⟨?_, ?_⟩, ?_, ?_⟩ <;> (ring_nf; nlinarith)
    rw [torDist2, min_eq_left hrest, hcenter, hvoff]
  · simp only [if_pos rfl] at hval
    rw [← hval] at hv
    norm_num at hv

/-- C3 witness: the amended statement applied to the probe
`(1/2, 1/2) + (1/10, 1/10)` on an empty grid with `min_dist = 1/10`. -/
theorem c3_recorded_squared_diff_witness :
    (1/50 : ℚ) = dist2 (1/2, 1/2) (3/5, 3/5) ∧
    (1/50 : ℚ) = torDist2 (1/2, 1/2) (3/5, 3/5) ∧
    (1/10 : ℚ) ^ 2 ≤ 1/50 ∧ (1/50 : ℚ) < 4 * (1/10) ^ 2 := by
  have h := c3_recorded_squared_diff 15 (1/10) (List.replicate 225 none) []
    (1/2, 1/2) (1/10, 1/10) (3/5, 3/5) (1/50) (by decide) (by norm_num)
  refine ⟨h.1, ?_⟩
  exact h.2 (by norm_num) (by norm_num) (by norm_num [dot2]) (by norm_num [dot2])
    (by norm_num) (by norm_num) (by norm_num) (by norm_num)

/-- Invariant of the selection loop: when it returns a probe, either the
accumulator was returned unchanged and every list entry was skipped against
the threshold `m`, or the result is a list entry of value in `[0, m]` that
is minimal among the non-negative values, strictly so against later
entries. -/
theorem selectNearestGo_spec (ps : List (Pt × ℚ)) : ∀ (m : ℚ) (best : Option Pt) (p : Pt),
    selectNearestGo ps m best = some p →
    (best = some p ∧ ∀ i q di, ps.get? i = some (q, di) → di < 0 ∨ m < di) ∨
    (∃ j dj, ps.get? j = some (p, dj) ∧ 0 ≤ dj ∧ dj ≤ m ∧
      (∀ i q di, ps.get? i = some (q, di) → 0 ≤ di → dj ≤ di) ∧
      (∀ i q di, ps.get? i = some (q, di) → 0 ≤ di → j < i → dj < di)) := by
  induction ps with
  | nil =>
    intro m best p h
    exact Or.inl ⟨h, by intro i q di hg; simp at hg⟩
  | cons hd rest ih =>
    obtain ⟨q0, d0⟩ := hd
    intro m best p h
    rw [selectNearestGo] at h
    by_cases hcond : d0 < 0 ∨ m < d0
    · rw [if_pos hcond] at h
      rcases ih m best p h with ⟨hb, hall⟩ | ⟨j, dj, hget, h0, hm, hmin, hafter⟩
      · refine Or.inl ⟨hb, ?_⟩
        intro i q di hg
        match i with
        | 0 =>
          simp only [List.get?_cons_zero, Option.some.injEq, Prod.mk.injEq] at hg
          rw [← hg.2]
          exact hcond
        | Nat.succ i =>
          exact hall i q di (by simpa using hg)
      · refine Or.inr ⟨j + 1, dj, by simpa using hget, h0, hm, ?_, ?_⟩
        · intro i q di hg hdi
          match i with
          | 0 =>
            simp only [List.get?_cons_zero, Option.some.injEq, Prod.mk.injEq] at hg
            rcases hcond with hc | hc
            · rw [← hg.2] at hdi; linarith
            · rw [← hg.2]; linarith [hm]
          | Nat.succ i =>
            exact hmin i q di (by simpa using hg) hdi
        · intro i q di hg hdi hlt
          match i with
          | 0 => omega
          | Nat.succ i =>
            exact hafter i q di (by simpa using hg) hdi (by omega)
    · rw [if_neg hcond] at h
      push_neg at hcond
      obtain ⟨h0d, hdm⟩ := hcond
      rcases ih d0 (some q0) p h with ⟨hb, hall⟩ | ⟨j, dj, hget, h0, hm, hmin, hafter⟩
      · simp only [Option.some.injEq] at hb
        refine Or.inr ⟨0, d0, by rw [hb]; rfl, h0d, hdm, ?_, ?_⟩
        · intro i q di hg hdi
          match i with
          | 0 =>
            simp only [List.get?_cons_zero, Option.some.injEq, Prod.mk.injEq] at hg
            rw [← hg.2]
          | Nat.succ i =>
            rcases hall i q di (by simpa using hg) with hc | hc
            · linarith
            · linarith
        · intro i q di hg hdi hlt
          match i with
          | 0 => omega
          | Nat.succ i =>
            rcases hall i q di (by simpa using hg) with hc | hc
            · linarith
            · linarith
      · refine Or.inr ⟨j + 1, dj, by simpa using hget, h0, le_trans hm hdm, ?_, ?_⟩
        · intro i q di hg hdi
          match i with
          | 0 =>
            simp only [List.get?_cons_zero, Option.some.injEq, Prod.mk.injEq] at hg
            rw [← hg.2]
            exact hm
          | Nat.succ i =>
            exact hmin i q di (by simpa using hg) hdi
        · intro i q di hg hdi hlt
          match i with
          | 0 => omega
          | Nat.succ i =>
            exact hafter i q di (by simpa using hg) hdi (by omega)

/-- C6 counterexample: two probes tie at recorded distance `1/50`; the
source's strict-inequality skip test keeps updating on ties, so the probe
selected is the second one, not the first in generation order. -/
theorem c6_tie_goes_to_last :
    selectNearest (1/100) [(((1/4 : ℚ), (1/4 : ℚ)), 1/50), (((3/4 : ℚ), (3/4 : ℚ)), 1/50)] =
      some (3/4, 3/4) ∧
    ((3/4 : ℚ), (3/4 : ℚ)) ≠ ((1/4 : ℚ), (1/4 : ℚ)) := by
  decide

/-- C6 (amended): the selected probe is a probe whose recorded distance is
non-negative, at most the initial threshold `4·min_dist²`, and minimal
among all non-negative recorded distances — with ties broken in favour of
the LAST such probe in generation order (every later valid probe is
strictly farther). -/
theorem c6_select_minimal (d2 : ℚ) (ps : List (Pt × ℚ)) (p : Pt)
    (h : selectNearest d2 ps = some p) :
    ∃ j dj, ps.get? j = some (p, dj) ∧ 0 ≤ dj ∧ dj ≤ 4 * d2 ∧
      (∀ i q di, ps.get? i = some (q, di) → 0 ≤ di → dj ≤ di) ∧
      (∀ i q di, ps.get? i = some (q, di) → 0 ≤ di → j < i → dj < di) := by
  rcases selectNearestGo_spec ps (4 * d2) none p h with ⟨hb, _⟩ | hr
  · exact absurd hb (by simp)
  · exact hr

/-- C6 witness: the characterization applied to a one-probe list; its
selected probe is the single entry, whose recorded distance `1/50` is
within the threshold. -/
theorem c6_select_minimal_witness :
    (0 : ℚ) ≤ 1/50 ∧ (1/50 : ℚ) ≤ 4 * (1/100) := by
  obtain ⟨j, dj, hget, h0, hm, -, -⟩ :=
    c6_select_minimal (1/100) [((1/2, 1/2), 1/50)] (1/2, 1/2) (by decide)
  have hj : j = 0 := by
    rcases j with _ | j
    · rfl
    · simp at hget
  subst hj
  simp only [List.get?_cons_zero, Option.some.injEq, Prod.mk.injEq, true_and] at hget
  subst hget
  exact ⟨h0, hm⟩

/-- C2 (amended): whenever an iteration accepts no probe, the picked active
index is erased, unconditionally: the source's guard is
`actives.size() > 0 || k > 1`, and `actives.size() > 0` always holds inside
the loop, so the claimed retention branch (singleton active set and
`k ≤ 1`) is dead code and the index is removed there too. -/
theorem c2_erase_whenever_no_probe (S : ℕ) (d2 : ℚ) (numProbes : ℕ) (pick : ℕ)
    (offs : ℕ → Pt) (st : St) (aIdx : ℕ) (active : Pt) (probes : List (Pt × ℚ))
    (hget : st.actives.get? (pick % st.actives.length) = some aIdx)
    (hker : st.kernel.get? aIdx = some active)
    (hprobes : iterProbes S d2 numProbes offs st.maskArr st.kernel active = some probes)
    (hnone : selectNearest d2 probes = none)
    (hne : st.actives ≠ []) :
    stepIter S d2 numProbes pick offs st =
      .ok ⟨st.kernel, st.k, st.actives.eraseIdx (pick % st.actives.length), st.maskArr⟩ ∧
    (st.actives.eraseIdx (pick % st.actives.length)).length + 1 = st.actives.length := by
  have hlen : 0 < st.actives.length := List.length_pos.mpr hne
  constructor
  · simp only [stepIter, hget, hker, hprobes, hnone]
    rw [if_pos (Or.inl hlen)]
  · rw [List.length_eraseIdx_of_lt (Nat.mod_lt _ hlen)]
    omega

/-- C2 witness: the erase conclusion at a concrete singleton-active state
with zero probes. -/
theorem c2_erase_whenever_no_probe_witness :
    stepIter 15 (1/100) 0 0 (fun _ => ((0 : ℚ), (0 : ℚ)))
      ⟨[((1/2 : ℚ), (1/2 : ℚ))], 0, [0], (List.replicate 225 none).set 112 (some 0)⟩ =
      .ok ⟨[((1/2 : ℚ), (1/2 : ℚ))], 0, ([0] : List ℕ).eraseIdx (0 % ([0] : List ℕ).length),
           (List.replicate 225 none).set 112 (some 0)⟩ ∧
    (([0] : List ℕ).eraseIdx (0 % ([0] : List ℕ).length)).length + 1 = ([0] : List ℕ).length :=
  c2_erase_whenever_no_probe 15 (1/100) 0 0 (fun _ => ((0 : ℚ), (0 : ℚ)))
    ⟨[((1/2 : ℚ), (1/2 : ℚ))], 0, [0], (List.replicate 225 none).set 112 (some 0)⟩
    0 (1/2, 1/2) [] (by decide) (by decide) (by decide) (by decide) (by decide)

/-- C7 counterexample: calling the sampler with `num_probes = 0` (a stated
precondition violation; capacity 2 and `min_dist = 1/10` are valid) does
not surface any error: the run completes normally with result `.ok`,
count 1, and buffer slot 0 overwritten by the seed — work IS performed. -/
theorem c7_no_error_surfaced :
    poissonSquare 15 (1/100) 0 (fun _ => 0) (fun _ _ => ((0 : ℚ), (0 : ℚ)))
      [((0 : ℚ), (0 : ℚ)), ((0 : ℚ), (0 : ℚ))] = .ok (1, [(1/2, 1/2), (0, 0)]) ∧
    [((1/2 : ℚ), (1/2 : ℚ)), ((0 : ℚ), (0 : ℚ))].get? 0 ≠
      [((0 : ℚ), (0 : ℚ)), ((0 : ℚ), (0 : ℚ))].get? 0 := by
  decide

/-- C7 (amended): the source performs no precondition validation at all:
with `num_probes = 0`, any RNG whatsoever, and a capacity-2 buffer, it
writes the seed, runs one probe-less iteration that exhausts the seed, and
returns count 1 normally. -/
theorem c7_runs_without_validation (pick : ℕ → ℕ) (offs : ℕ → ℕ → Pt) :
    poissonSquare 15 (1/100) 0 pick offs [((0 : ℚ), (0 : ℚ)), ((0 : ℚ), (0 : ℚ))] =
      .ok (1, [(1/2, 1/2), (0, 0)]) := by
  have h1 : pick 0 % 1 = 0 := Nat.mod_one _
  have hstep : stepIter 15 (1/100) 0 (pick 0) (offs 0)
      ⟨[(1/2, 1/2), (0, 0)], 0, [0], (List.replicate 225 (none : Option ℕ)).set 112 (some 0)⟩ =
      .ok ⟨[(1/2, 1/2), (0, 0)], 0, [], (List.replicate 225 (none : Option ℕ)).set 112 (some 0)⟩ := by
    simp only [stepIter, iterProbes, List.length_cons, List.length_nil, h1]
    rfl
  have hrun : runLoop 15 (1/100) 0 pick offs 4 0
      ⟨[(1/2, 1/2), (0, 0)], 0, [0], (List.replicate 225 (none : Option ℕ)).set 112 (some 0)⟩ =
      .ok ⟨[(1/2, 1/2), (0, 0)], 0, [], (List.replicate 225 (none : Option ℕ)).set 112 (some 0)⟩ := by
    rw [show (4 : ℕ) = 3 + 1 from rfl, runLoop]
    rw [if_neg (by simp)]
    rw [hstep]
    show runLoop 15 (1/100) 0 pick offs 3 1
      ⟨[(1/2, 1/2), (0, 0)], 0, [], (List.replicate 225 (none : Option ℕ)).set 112 (some 0)⟩ = _
    rw [show (3 : ℕ) = 2 + 1 from rfl, runLoop]
    rw [if_pos (Or.inl rfl)]
  show (match runLoop 15 (1/100) 0 pick offs 4 0
      ⟨[(1/2, 1/2), (0, 0)], 0, [0], (List.replicate 225 (none : Option ℕ)).set 112 (some 0)⟩ with
    | .error e => (.error e : Except RunErr (ℕ × List Pt))
    | .ok st => .ok (st.k + 1, st.kernel)) = .ok (1, [(1/2, 1/2), (0, 0)])
  rw [hrun]

/-- One accepted step of the loop: the kernel length is preserved, `k` does
not decrease, and the step either erases one active index leaving kernel
and `k` unchanged, or accepts a probe: increments `k`, appends one active
index, and writes only at position `k + 1` (which is within the buffer). -/
theorem stepIter_cases (S : ℕ) (d2 : ℚ) (np : ℕ) (pick : ℕ) (offs : ℕ → Pt) (st st2 : St)
    (hne : st.actives ≠ []) (h : stepIter S d2 np pick offs st = .ok st2) :
    st2.kernel.length = st.kernel.length ∧ st.k ≤ st2.k ∧
    ((st2.k = st.k ∧ st2.actives.length + 1 = st.actives.length ∧ st2.kernel = st.kernel) ∨
     (st2.k = st.k + 1 ∧ st2.actives.length = st.actives.length + 1 ∧ st.k + 1 < st.kernel.length ∧
      ∃ best, st2.kernel = st.kernel.set (st.k + 1) best)) := by
  have hlen : 0 < st.actives.length := List.length_pos.mpr hne
  have hidx : pick % st.actives.length < st.actives.length := Nat.mod_lt _ hlen
  simp only [stepIter] at h
  rcases hg : st.actives.get? (pick % st.actives.length) with _ | aIdx <;> rw [hg] at h <;>
    dsimp only at h
  · simp at h
  rcases hker : st.kernel.get? aIdx with _ | active <;> rw [hker] at h <;> dsimp only at h
  · simp at h
  rcases hpr : iterProbes S d2 np offs st.maskArr st.kernel active with _ | probes <;>
    rw [hpr] at h <;> dsimp only at h
  · simp at h
  rcases hsel : selectNearest d2 probes with _ | best <;> rw [hsel] at h <;> dsimp only at h
  · rw [if_pos (Or.inl hlen)] at h
    injection h with h2
    subst h2
    refine ⟨rfl, le_refl _, Or.inl ⟨rfl, ?_, rfl⟩⟩
    rw [List.length_eraseIdx_of_lt hidx]
    omega
  · by_cases hklt : st.k + 1 < st.kernel.length
    · rw [if_pos hklt] at h
      rcases hm : mark S st.maskArr best (st.k + 1) with e | m2 <;> rw [hm] at h <;>
        dsimp only at h
      · simp at h
      injection h with h2
      subst h2
      exact ⟨by simp, by simp, Or.inr ⟨rfl, by simp, hklt, best, rfl⟩⟩
    · rw [if_neg hklt] at h
      simp at h

/-- A loop step never reports fuel exhaustion itself: all its abnormal
outcomes model C++ undefined behaviour. -/
theorem stepIter_ne_fuel (S : ℕ) (d2 : ℚ) (np : ℕ) (pick : ℕ) (offs : ℕ → Pt) (st : St) :
    stepIter S d2 np pick offs st ≠ .error .fuel := by
  intro h
  simp only [stepIter] at h
  rcases hg : st.actives.get? (pick % st.actives.length) with _ | aIdx <;> rw [hg] at h <;>
    dsimp only at h
  · simp at h
  rcases hker : st.kernel.get? aIdx with _ | active <;> rw [hker] at h <;> dsimp only at h
  · simp at h
  rcases hpr : iterProbes S d2 np offs st.maskArr st.kernel active with _ | probes <;>
    rw [hpr] at h <;> dsimp only at h
  · simp at h
  rcases hsel : selectNearest d2 probes with _ | best <;> rw [hsel] at h <;> dsimp only at h
  · split at h <;> simp at h
  · split at h
    · rcases hm : mark S st.maskArr best (st.k + 1) with e | m2 <;> rw [hm] at h <;>
        dsimp only at h <;> simp at h
    · simp at h

/-- Frame property of the loop: `k` never decreases, the kernel length is
preserved, and every buffer slot beyond the final `k` still holds its
initial contents. -/
theorem runLoop_frame (S : ℕ) (d2 : ℚ) (np : ℕ) (pick : ℕ → ℕ) (offs : ℕ → ℕ → Pt) :
    ∀ (fuel it : ℕ) (st stf : St), runLoop S d2 np pick offs fuel it st = .ok stf →
    st.k ≤ stf.k ∧ stf.kernel.length = st.kernel.length ∧
    ∀ i, stf.k < i → stf.kernel.get? i = st.kernel.get? i := by
  intro fuel
  induction fuel with
  | zero => intro it st stf h; exact absurd h (by simp [runLoop])
  | succ fuel ih =>
    intro it st stf h
    rw [runLoop] at h
    by_cases hguard : st.actives = [] ∨ ¬ st.k < st.kernel.length - 1
    · rw [if_pos hguard] at h
      injection h with h2
      subst h2
      exact ⟨le_refl _, rfl, fun i _ => rfl⟩
    · rw [if_neg hguard] at h
      push_neg at hguard
      obtain ⟨hne, hklt⟩ := hguard
      rcases hs : stepIter S d2 np (pick it) (offs it) st with e | st2 <;> rw [hs] at h <;>
        dsimp only at h
      · simp at h
      obtain ⟨hlen2, hk2, hcase⟩ := stepIter_cases S d2 np (pick it) (offs it) st st2 hne hs
      obtain ⟨hk3, hlen3, hframe⟩ := ih (it + 1) st2 stf h
      refine ⟨le_trans hk2 hk3, by rw [hlen3, hlen2], ?_⟩
      intro i hi
      rw [hframe i hi]
      rcases hcase with ⟨hk, -, hker⟩ | ⟨hk, -, -, best, hker⟩
      · rw [hker]
      · rw [hker]
        exact List.get?_set_ne _ _ (by omega)

/-- Termination measure: with step bound at least
`2·(N − 1 − k) + |actives| + 1` the loop never exhausts its bound — every
iteration either accepts a point (increasing `k`, bounded by `N − 1`) or
erases the picked index, and each index is pushed exactly once, so at most
`2N − 1` iterations run. -/
theorem runLoop_ne_fuel (S : ℕ) (d2 : ℚ) (np : ℕ) (pick : ℕ → ℕ) (offs : ℕ → ℕ → Pt) :
    ∀ (fuel it : ℕ) (st : St),
    2 * (st.kernel.length - 1 - st.k) + st.actives.length + 1 ≤ fuel →
    runLoop S d2 np pick offs fuel it st ≠ .error .fuel := by
  intro fuel
  induction fuel with
  | zero => intro it st hle; omega
  | succ fuel ih =>
    intro it st hle h
    rw [runLoop] at h
    by_cases hguard : st.actives = [] ∨ ¬ st.k < st.kernel.length - 1
    · rw [if_pos hguard] at h
      simp at h
    · rw [if_neg hguard] at h
      push_neg at hguard
      obtain ⟨hne, hklt⟩ := hguard
      rcases hs : stepIter S d2 np (pick it) (offs it) st with e | st2 <;> rw [hs] at h <;>
        dsimp only at h
      · injection h with h2
        exact stepIter_ne_fuel S d2 np (pick it) (offs it) st (h2 ▸ hs)
      · obtain ⟨hlen2, hk2, hcase⟩ := stepIter_cases S d2 np (pick it) (offs it) st st2 hne hs
        refine ih (it + 1) st2 ?_ h
        rcases hcase with ⟨hk, hlen, -⟩ | ⟨hk, hlen, hbound, -⟩
        · omega
        · omega

/-- C9: frame property of `poisson_square`: when the call returns count
`c`, every buffer slot with index `≥ c` holds exactly the contents it had
before the call (the seed write targets slot 0 and each acceptance writes
slot `k + 1 ≤ c − 1`). -/
theorem c9_frame_beyond_count (S : ℕ) (d2 : ℚ) (np : ℕ) (pick : ℕ → ℕ)
    (offs : ℕ → ℕ → Pt) (kernel0 : List Pt) (c : ℕ) (kf : List Pt)
    (h : poissonSquare S d2 np pick offs kernel0 = .ok (c, kf)) :
    ∀ i, c ≤ i → kf.get? i = kernel0.get? i := by
  simp only [poissonSquare] at h
  by_cases h0 : kernel0.length = 0
  · rw [if_pos h0] at h
    simp at h
  rw [if_neg h0] at h
  rcases hm : mark S (List.replicate (S * S) none) (1/2, 1/2) 0 with e | m1 <;>
    rw [hm] at h <;> dsimp only at h
  · simp at h
  rcases hr : runLoop S d2 np pick offs (2 * kernel0.length) 0
      ⟨kernel0.set 0 (1/2, 1/2), 0, [0], m1⟩ with e | st <;> rw [hr] at h <;> dsimp only at h
  · simp at h
  injection h with h2
  have hc : st.k + 1 = c := congrArg Prod.fst h2
  have hkf : st.kernel = kf := congrArg Prod.snd h2
  obtain ⟨hk3, hlen3, hframe⟩ := runLoop_frame S d2 np pick offs _ _ _ _ hr
  intro i hi
  rw [← hkf, hframe i (by omega)]
  exact List.get?_set_ne _ _ (by omega)

/-- C9 witness: a capacity-1 run returns count 1 and leaves slot 1 (absent)
untouched. -/
theorem c9_frame_beyond_count_witness :
    [((1/2 : ℚ), (1/2 : ℚ))].get? 1 = [((0 : ℚ), (0 : ℚ))].get? 1 :=
  c9_frame_beyond_count 15 (1/100) 1 (fun _ => 0) (fun _ _ => (0, 0))
    [((0 : ℚ), (0 : ℚ))] 1 [((1/2 : ℚ), (1/2 : ℚ))] (by decide) 1 (le_refl 1)

/-- C10: for every capacity `N ≥ 1` and every sequence of RNG draws the
main loop terminates: the embedded run is executed with step bound `2N`
(one more than the claimed maximal `2N − 1` iterations) and never reports
exhaustion of that bound. -/
theorem c10_loop_terminates (S : ℕ) (d2 : ℚ) (np : ℕ) (pick : ℕ → ℕ)
    (offs : ℕ → ℕ → Pt) (kernel0 : List Pt) (h1 : kernel0.length ≠ 0) :
    poissonSquare S d2 np pick offs kernel0 ≠ .error .fuel := by
  intro h
  simp only [poissonSquare] at h
  rw [if_neg h1] at h
  rcases hm : mark S (List.replicate (S * S) none) (1/2, 1/2) 0 with e | m1 <;>
    rw [hm] at h <;> dsimp only at h
  · simp at h
  rcases hr : runLoop S d2 np pick offs (2 * kernel0.length) 0
      ⟨kernel0.set 0 (1/2, 1/2), 0, [0], m1⟩ with e | st <;> rw [hr] at h <;> dsimp only at h
  · injection h with h2
    refine runLoop_ne_fuel S d2 np pick offs (2 * kernel0.length) 0
      ⟨kernel0.set 0 (1/2, 1/2), 0, [0], m1⟩ ?_ (h2 ▸ hr)
    simp only [List.length_set, List.length_cons, List.length_nil]
    omega
  · simp at h

/-- C10 witness: the termination theorem at a concrete capacity-1 call. -/
theorem c10_loop_terminates_witness :
    poissonSquare 15 (1/100) 1 (fun _ => 0) (fun _ _ => ((0 : ℚ), (0 : ℚ)))
      [((0 : ℚ), (0 : ℚ))] ≠ .error .fuel :=
  c10_loop_terminates 15 (1/100) 1 (fun _ => 0) (fun _ _ => ((0 : ℚ), (0 : ℚ)))
    [((0 : ℚ), (0 : ℚ))] (by decide)

end GLKernel
